import Mathlib

/-!
Shallow embedding of the MeFolder hierarchical entity store
(folder hierarchy, tag assignment with usage counters, orchestration
services) and proofs about the embedded operations.

Conventions of the embedding:
* The SQLite database is a record of lists of rows, one list per table.
* Asynchronous TypeScript methods become pure functions; methods that can
  throw return `Except ServiceError`.  An operation that returns
  `Except.error e` leaves the store unchanged (in the source every throw
  happens either before the write or inside an atomic transaction that
  rolls back), so the error case carries no state.
* The distinct error messages thrown by the source are represented by a
  typed error enumeration.
* `while` loops that follow `parentId` chains (which the source runs
  without any bound) are embedded as fuel-indexed recursions; running out
  of fuel is reported by a dedicated marker that never corresponds to a
  source behaviour, and theorems about the loops either assume or prove
  that enough fuel is available.
* Timestamp-valued fields (`createdAt`, `updatedAt`, `lastUsedAt`,
  `archivedAt`) and display-only fields (colors, icons, view settings,
  visibility, `isFavorite`) are omitted: no verified operation branches
  on them.  Numeric SQL expressions on counters are over `Nat`;
  `MAX(usage_count - 1, 0)` is Nat truncated subtraction.
-/

namespace MeFolder

/-- Identifiers are opaque strings (`UUID = string` in the source). -/
abbrev UUID := String

/-- `FolderStatus` from `types/entities/folder` ('active' | 'archived' | 'deleted'). -/
inductive FolderStatus where
  | active
  | archived
  | deleted
deriving DecidableEq, Repr

/-- `FolderType` from `types/entities/folder`. -/
inductive FolderType where
  | regular
  | system
  | shared
  | favorite
deriving DecidableEq, Repr

/-- A row of the `folders` table / the `Folder` entity, restricted to the
fields the verified operations read or write. -/
structure Folder where
  id : UUID
  name : String
  description : Option String := none
  parentId : Option UUID := none
  path : String
  level : Nat
  status : FolderStatus
  ftype : FolderType
  isProtected : Bool
  isSystemFolder : Bool
deriving DecidableEq, Repr

/-- The typed rendering of the distinct error messages thrown by the
services and repositories. -/
inductive ServiceError where
  /-- 'Carpeta no encontrada' / 'Tag no encontrado' / 'Etiqueta no encontrada' -/
  | notFound
  /-- 'Carpeta padre no encontrada' -/
  | parentNotFound
  /-- 'No se puede crear subcarpeta en carpeta eliminada' -/
  | parentDeleted
  /-- 'Ya existe una carpeta con el nombre ... en este nivel' -/
  | duplicateName
  /-- 'No se puede mover una carpeta dentro de sí misma' -/
  | cycleDetected
  /-- 'No se puede eliminar carpeta que contiene archivos o subcarpetas' -/
  | nonEmptyFolder
  /-- 'No se pueden eliminar tags del sistema' -/
  | protectedResource
  /-- 'Validación fallida: ...' raised by the repositories -/
  | validationFailed
  /-- low-level SQL failure (primary-key or foreign-key violation) -/
  | persistenceError
  /-- modelling artifact: the fuel of an embedded `while` loop ran out;
      no source behaviour corresponds to this constructor -/
  | outOfFuel
deriving DecidableEq, Repr

/-- `FileStatus` from `types/entities/file`. -/
inductive FileStatus where
  | active
  | archived
  | deleted
deriving DecidableEq, Repr

/-- A row of the `files` table, restricted to the fields the verified
operations read. -/
structure FileRow where
  id : UUID
  name : String
  folderId : Option UUID := none
  status : FileStatus
deriving DecidableEq, Repr

/-- JavaScript `String.prototype.trim()`: strip whitespace from both
ends.  (Embedded through character-list operations rather than
`String.trim` so that concrete instances evaluate by `decide`/`rfl`.) -/
def jsTrim (s : String) : String :=
  String.mk (((s.data.dropWhile Char.isWhitespace).reverse.dropWhile Char.isWhitespace).reverse)

/-- JavaScript string truthiness applied to a nullable string:
`x || null` maps the empty string and `null` to `null`. -/
def truthyOpt : Option String → Option String
  | some s => if s == "" then none else some s
  | none => none

/-- `FolderRepositoryImplementation.findById`:
`SELECT * FROM folders WHERE id = ? AND status != 'deleted'`, first row.
`id` is the primary key, so `find?` over the table models the query. -/
def folderFindById (s : List Folder) (id : UUID) : Option Folder :=
  s.find? (fun f => f.id == id && !(f.status == FolderStatus.deleted))

/-- The optional filters accepted by `FolderRepositoryImplementation.findAll`.
`none` models an absent / `null` / `undefined` filter. -/
structure FolderFilters where
  parentId : Option UUID := none
  status : Option FolderStatus := none
  ftype : Option FolderType := none
  level : Option Nat := none
  isSystemFolder : Option Bool := none

/-- One folder row against the `findAll` filters.  The source guards each
clause with JavaScript truthiness (`if (filters.parentId)`), so a `null`
(or empty-string) `parentId` filter adds NO `parent_id` clause; `level`
and `isSystemFolder` are guarded by `!== undefined` instead. -/
def folderMatchesFilters (filters : FolderFilters) (f : Folder) : Bool :=
  (match filters.parentId with
   | some pid => if pid == "" then true else f.parentId == some pid
   | none => true) &&
  (match filters.status with
   | some st => f.status == st
   | none => true) &&
  (match filters.ftype with
   | some t => f.ftype == t
   | none => true) &&
  (match filters.level with
   | some l => f.level == l
   | none => true) &&
  (match filters.isSystemFolder with
   | some b => f.isSystemFolder == b
   | none => true)

/-- `FolderRepositoryImplementation.findAll`:
`SELECT * FROM folders WHERE status != 'deleted' [AND filters]`.
`ORDER BY name ASC` and the pagination clauses are not modelled: the
verified call sites pass no `limit`/`offset` and consume the result only
through order-insensitive operations. -/
def folderFindAll (s : List Folder) (filters : FolderFilters) : List Folder :=
  s.filter (fun f => !(f.status == FolderStatus.deleted) && folderMatchesFilters filters f)

/-- `FolderRepositoryImplementation.findByFolderId`: `findAll({ parentId })`. -/
def folderFindByFolderId (s : List Folder) (folderId : UUID) : List Folder :=
  folderFindAll s { parentId := some folderId }

/-- `FileRepositoryImplementation.findByFolderId`: `findAll({ folderId })`,
i.e. `SELECT * FROM files WHERE status != 'deleted' AND folder_id = ?`
(the `folder_id` clause again guarded by truthiness of the filter). -/
def fileFindByFolderId (files : List FileRow) (folderId : UUID) : List FileRow :=
  files.filter (fun r =>
    !(r.status == FileStatus.deleted) &&
    (if folderId == "" then true else r.folderId == some folderId))

/-- Invalid-name characters of `FolderModel.validate` (regex `[<>:"/\\|?*]`). -/
def folderNameInvalidChar (c : Char) : Bool :=
  c == '<' || c == '>' || c == ':' || c == '\"' || c == '/' || c == '\\' ||
  c == '|' || c == '?' || c == '*'

/-- `FolderModel.validate` produced at least one error.  Each disjunct is
one `ValidationUtils` check, with the JavaScript truthiness guards of the
source (`value && value.length > max`, `if (this.data.description)`,
`this.data.name && invalidChars.test(...)`). -/
def folderHasValidationError (f : Folder) : Bool :=
  (f.name == "") ||
  (f.name != "" && f.name.length < 1) ||
  (f.name != "" && f.name.length > 100) ||
  (match f.description with
   | some d => d != "" && d.length > 500
   | none => false) ||
  (f.name != "" && f.name.data.any folderNameInvalidChar)

/-- `FolderModel.validate().isValid`. -/
def folderValidate (f : Folder) : Bool :=
  !(folderHasValidationError f)

/-- `CreateFolderInput`, restricted to the fields the factory reads that
the verified call sites supply (`tagIds` and the display-only fields are
never passed by the verified scenarios). -/
structure CreateFolderInput where
  name : String
  description : Option String := none
  parentId : Option UUID := none
  ftype : Option FolderType := none

/-- `FolderFactory.create`.  The generated id (`Date.now()`-based in the
source) is nondeterministic and therefore passed in.  Note the source
computes `path` from the parent ID — not the parent path — using the raw
(untrimmed) input name, and always sets `level: 0`. -/
def folderFactoryCreate (newId : UUID) (input : CreateFolderInput) : Folder :=
  { id := newId
    name := jsTrim input.name
    path :=
      match input.parentId with
      | some pid => if pid == "" then input.name else pid ++ "/" ++ input.name
      | none => input.name
    level := 0
    status := FolderStatus.active
    ftype := input.ftype.getD FolderType.regular
    isProtected := false
    isSystemFolder := input.ftype == some FolderType.system
    description :=
      match input.description with
      | some d => if jsTrim d == "" then none else some (jsTrim d)
      | none => none
    parentId := truthyOpt input.parentId }

/-- `FolderRepositoryImplementation.create`: build the model with the
factory, validate, then insert the row in one transaction. -/
def folderRepoCreate (s : List Folder) (newId : UUID) (input : CreateFolderInput) :
    Except ServiceError (List Folder × Folder) :=
  let f := folderFactoryCreate newId input
  if folderValidate f then Except.ok (s ++ [f], f)
  else Except.error ServiceError.validationFailed

/-- `UpdateFolderInput`, restricted to the patches built by the verified
service call sites (`moveFolder` passes `parentId`, `deleteFolder` passes
`status`, `renameFolder` passes `name`).  `none` means the key is absent
from the patch object. -/
structure FolderUpdateInput where
  name : Option String := none
  parentId : Option UUID := none
  status : Option FolderStatus := none

/-- `BaseModel.update`: spread of the patch over the current data, so a
key present in the patch overwrites the field and an absent key leaves it. -/
def applyFolderUpdate (f : Folder) (u : FolderUpdateInput) : Folder :=
  { f with
    name := u.name.getD f.name
    parentId := match u.parentId with
                | some p => some p
                | none => f.parentId
    status := u.status.getD f.status }

/-- `FolderRepositoryImplementation.update`: reload the current live row,
merge the patch through `BaseModel.update`, validate, then run the
full-row `UPDATE ... WHERE id = ?`.  The SQL column list does not include
`is_system_folder` (or `id`), so every matching row keeps its own value
of those two columns. -/
def folderRepoUpdate (s : List Folder) (id : UUID) (u : FolderUpdateInput) :
    Except ServiceError (List Folder × Folder) :=
  match folderFindById s id with
  | none => Except.error ServiceError.notFound
  | some existing =>
    let merged := applyFolderUpdate existing u
    if folderValidate merged then
      Except.ok
        (s.map (fun g =>
          if g.id == id then
            { merged with id := g.id, isSystemFolder := g.isSystemFolder }
          else g),
         merged)
    else Except.error ServiceError.validationFailed

/-- Outcome of the unbounded ancestor `while` loop of
`FolderService.validateNotDescendant`, as a fueled recursion:
`found` = the moving folder was encountered (cycle), `root` = the loop
reached a missing row or a parentless row, `outOfFuelW` = the fuel ran
out (modelling artifact). -/
inductive WalkResult where
  | found
  | root
  | outOfFuelW
deriving DecidableEq, Repr

/-- The `while (currentId)` loop of `FolderService.validateNotDescendant`:
compare the current id against the moving folder first, then load the row
(`findById`, which hides soft-deleted rows), stop at a missing row, and
otherwise step to `folder.parentId || null` (an empty-string parent is
falsy and ends the loop, like the `null` case). -/
def walkUp (s : List Folder) (folderId : UUID) : Nat → UUID → WalkResult
  | 0, _ => WalkResult.outOfFuelW
  | fuel + 1, currentId =>
    if currentId == folderId then WalkResult.found
    else
      match folderFindById s currentId with
      | none => WalkResult.root
      | some f =>
        match f.parentId with
        | none => WalkResult.root
        | some p => if p == "" then WalkResult.root else walkUp s folderId fuel p

/-- `FolderService.validateNotDescendant(folderId, targetParentId)`. -/
def validateNotDescendant (s : List Folder) (fuel : Nat) (folderId targetParentId : UUID) :
    Except ServiceError Unit :=
  match walkUp s folderId fuel targetParentId with
  | WalkResult.found => Except.error ServiceError.cycleDetected
  | WalkResult.root => Except.ok ()
  | WalkResult.outOfFuelW => Except.error ServiceError.outOfFuel

/-- The `while (currentId)` loop of `FolderService.getFolderPath` as a
fueled recursion on the current nullable id.  The source `unshift`s the
name of each visited row while walking child → root; here the name is
appended after the recursive (ancestor) part, which builds the same
root-first list.  The step is `folder.parentId || null || null`, the
redundant double coalesce being a single nullable step.  `none` as result
means the fuel ran out. -/
def getFolderPathWalk (s : List Folder) : Nat → Option UUID → Option (List String)
  | _, none => some []
  | fuel, some cid =>
    if cid == "" then some []
    else
      match fuel with
      | 0 => none
      | fuel' + 1 =>
        match folderFindById s cid with
        | none => some []
        | some f => (getFolderPathWalk s fuel' (truthyOpt f.parentId)).map (· ++ [f.name])

/-- `FolderService.getFolderPath(folderId)`. -/
def getFolderPath (s : List Folder) (fuel : Nat) (folderId : UUID) : Option (List String) :=
  getFolderPathWalk s fuel (some folderId)

/-- `b` reaches `target` following the stored `parentId` chain upward
through live (non-deleted, find-able) rows: either `b` is `target`
itself, or `b` has a live row whose parent chain reaches `target`.  This
is the specification-side notion "`b` is `target` or a descendant of
`target`" under which a chain broken by a missing row does not connect. -/
inductive ReachUp (s : List Folder) (target : UUID) : UUID → Prop
  | refl : ReachUp s target target
  | step {b p : UUID} {f : Folder} :
      folderFindById s b = some f →
      f.parentId = some p →
      p ≠ "" →
      ReachUp s target p →
      ReachUp s target b

/-- `TagType` from `types/entities/tag`. -/
inductive TagType where
  | system
  | user
  | automatic
deriving DecidableEq, Repr

/-- A row of the `tags` table, restricted to the fields the verified
operations read or write (`priority` and the rgb components never affect
a verified branch; `colorHex` is kept because `TagModel.validate`
requires it). -/
structure TagRow where
  id : UUID
  name : String
  description : Option String := none
  colorHex : String
  ttype : TagType
  isActive : Bool
  usageCount : Nat
  parentId : Option UUID := none
deriving DecidableEq, Repr

/-- The whole persisted store: one list of rows per table. -/
structure DBState where
  folders : List Folder := []
  files : List FileRow := []
  tags : List TagRow := []
  fileTags : List (UUID × UUID) := []
  folderTags : List (UUID × UUID) := []

/-- `FolderService.validateParentFolder`: the parent must have a live row
(`findById` already hides `'deleted'` rows, so the explicit
`status === 'deleted'` re-check can only fire on rows `findById` cannot
return; it is kept for faithfulness). -/
def validateParentFolder (s : List Folder) (parentId : UUID) : Except ServiceError Unit :=
  match folderFindById s parentId with
  | none => Except.error ServiceError.parentNotFound
  | some parent =>
    if parent.status == FolderStatus.deleted then Except.error ServiceError.parentDeleted
    else Except.ok ()

/-- `FolderService.validateUniqueFolderName(name, parentId, excludeFolderId)`:
siblings are `findByFolderId(parentId)` when `parentId` is truthy, and
`findAll({ parentId: null })` otherwise; a sibling with the same name and
a different id is a conflict. -/
def validateUniqueFolderName (s : List Folder) (name : String) (parentId : Option UUID)
    (excludeFolderId : Option UUID) : Except ServiceError Unit :=
  let siblings :=
    match truthyOpt parentId with
    | some pid => folderFindByFolderId s pid
    | none => folderFindAll s { parentId := none }
  match siblings.find? (fun f => f.name == name && !(excludeFolderId == some f.id)) with
  | some _ => Except.error ServiceError.duplicateName
  | none => Except.ok ()

/-- `FolderService.createFolder(input)`.  The freshly generated row id is
passed in (`generateId` is clock/randomness based in the source). -/
def createFolder (db : DBState) (newId : UUID) (input : CreateFolderInput) :
    Except ServiceError (DBState × Folder) := do
  match truthyOpt input.parentId with
  | some pid => validateParentFolder db.folders pid
  | none => pure ()
  validateUniqueFolderName db.folders input.name (truthyOpt input.parentId) none
  let (folders', f) ← folderRepoCreate db.folders newId input
  pure ({ db with folders := folders' }, f)

/-- `FolderService.moveFolder(folderId, newParentId)`.  When the new
parent is truthy the service runs the descendant walk and the parent
check; the rename-collision check then runs against the new level; the
patch finally sent to the repository carries `parentId` only when
`newParentId !== null` (so a move to the root updates nothing). -/
def moveFolder (db : DBState) (fuel : Nat) (folderId : UUID) (newParentId : Option UUID) :
    Except ServiceError (DBState × Folder) := do
  let folder ←
    match folderFindById db.folders folderId with
    | none => Except.error ServiceError.notFound
    | some f => pure f
  match truthyOpt newParentId with
  | some pid => do
      validateNotDescendant db.folders fuel folderId pid
      validateParentFolder db.folders pid
  | none => pure ()
  validateUniqueFolderName db.folders folder.name newParentId (some folderId)
  let updateData : FolderUpdateInput :=
    match newParentId with
    | some pid => { parentId := some pid }
    | none => {}
  let (folders', f) ← folderRepoUpdate db.folders folderId updateData
  pure ({ db with folders := folders' }, f)

/-- `FolderService.getFolderContentCount(folderId)`: live files and live
subfolders directly inside the folder. -/
def getFolderContentCount (db : DBState) (folderId : UUID) : Nat × Nat :=
  ((fileFindByFolderId db.files folderId).length,
   (folderFindByFolderId db.folders folderId).length)

/-- `FolderService.validateFolderEmpty(folderId)`. -/
def validateFolderEmpty (db : DBState) (folderId : UUID) : Except ServiceError Unit :=
  let content := getFolderContentCount db folderId
  if content.1 > 0 || content.2 > 0 then Except.error ServiceError.nonEmptyFolder
  else Except.ok ()

/-- `FolderService.deleteFolder(folderId, force)`: require a live row,
check emptiness unless forced, then flip the status to `'deleted'`
through `folderRepo.update`. -/
def deleteFolder (db : DBState) (folderId : UUID) (force : Bool) :
    Except ServiceError (DBState × Bool) :=
  match folderFindById db.folders folderId with
  | none => Except.error ServiceError.notFound
  | some _ =>
    match (if force then Except.ok () else validateFolderEmpty db folderId) with
    | Except.error e => Except.error e
    | Except.ok _ =>
      match folderRepoUpdate db.folders folderId { status := some FolderStatus.deleted } with
      | Except.error e => Except.error e
      | Except.ok (folders', _) => Except.ok ({ db with folders := folders' }, true)

/-- `TagRepositoryImplementation.findById`:
`SELECT * FROM tags WHERE id = ? AND is_active = TRUE`, first row. -/
def tagFindById (tags : List TagRow) (id : UUID) : Option TagRow :=
  tags.find? (fun t => t.id == id && t.isActive)

/-- The optional filters accepted by `TagRepositoryImplementation.findAll`. -/
structure TagFilters where
  ttype : Option TagType := none
  parentId : Option UUID := none
  minUsage : Option Nat := none

/-- One tag row against the `findAll` filters; as for folders, the
`parent_id` clause is guarded by JavaScript truthiness of the filter
value, so `{ parentId: null }` adds no clause at all. -/
def tagMatchesFilters (filters : TagFilters) (t : TagRow) : Bool :=
  (match filters.ttype with
   | some ty => t.ttype == ty
   | none => true) &&
  (match filters.parentId with
   | some pid => if pid == "" then true else t.parentId == some pid
   | none => true) &&
  (match filters.minUsage with
   | some m => t.usageCount ≥ m
   | none => true)

/-- `TagRepositoryImplementation.findAll`:
`SELECT * FROM tags WHERE is_active = TRUE [AND filters]`.
`ORDER BY usage_count DESC, name ASC` and pagination are not modelled:
the verified call sites consume the result order-insensitively and pass
no `limit`. -/
def tagFindAll (tags : List TagRow) (filters : TagFilters) : List TagRow :=
  tags.filter (fun t => t.isActive && tagMatchesFilters filters t)

/-- `TagRepositoryImplementation.findByParentId`: `findAll({ parentId })`. -/
def tagFindByParentId (tags : List TagRow) (parentId : UUID) : List TagRow :=
  tagFindAll tags { parentId := some parentId }

/-- `TagModel.validate` produced at least one error (same
`ValidationUtils` checks as the folder model, with the 50/200 length
bounds and the required color). -/
def tagHasValidationError (t : TagRow) : Bool :=
  (t.name == "") ||
  (t.name != "" && t.name.length < 1) ||
  (t.name != "" && t.name.length > 50) ||
  (match t.description with
   | some d => d != "" && d.length > 200
   | none => false) ||
  (t.colorHex == "")

/-- `TagModel.validate().isValid`. -/
def tagValidate (t : TagRow) : Bool :=
  !(tagHasValidationError t)

/-- `UpdateTagInput`, restricted to the patches the verified call sites
build (`deleteTag` passes `isActive`, `renameTag` passes `name`). -/
structure TagUpdateInput where
  name : Option String := none
  isActive : Option Bool := none

/-- `BaseModel.update` for tags: spread of the patch over the row. -/
def applyTagUpdate (t : TagRow) (u : TagUpdateInput) : TagRow :=
  { t with
    name := u.name.getD t.name
    isActive := u.isActive.getD t.isActive }

/-- `TagRepositoryImplementation.update`: reload the live row, merge the
patch through the model, validate, then run the UPDATE.  The SQL column
list is `updated_at, name, description, type, priority, color_*,
parent_id` — it includes neither `is_active` nor `usage_count`, so those
two columns keep each row's stored value even when the patch changed the
in-memory model. -/
def tagRepoUpdate (tags : List TagRow) (id : UUID) (u : TagUpdateInput) :
    Except ServiceError (List TagRow × TagRow) :=
  match tagFindById tags id with
  | none => Except.error ServiceError.notFound
  | some existing =>
    let merged := applyTagUpdate existing u
    if tagValidate merged then
      Except.ok
        (tags.map (fun t =>
          if t.id == id then
            { merged with id := t.id, isActive := t.isActive, usageCount := t.usageCount }
          else t),
         merged)
    else Except.error ServiceError.validationFailed

/-- `TagService.deleteTag(tagId)`: require a live row, refuse system
tags, otherwise patch `{ isActive: false }` through the repository. -/
def deleteTag (db : DBState) (tagId : UUID) : Except ServiceError (DBState × Bool) :=
  match tagFindById db.tags tagId with
  | none => Except.error ServiceError.notFound
  | some tag =>
    if tag.ttype == TagType.system then Except.error ServiceError.protectedResource
    else
      match tagRepoUpdate db.tags tagId { isActive := some false } with
      | Except.error e => Except.error e
      | Except.ok (tags', _) => Except.ok ({ db with tags := tags' }, true)

/-- The `AFTER INSERT` triggers `trg_file_tag_insert` /
`trg_folder_tag_insert`: `UPDATE tags SET usage_count = usage_count + 1
WHERE id = NEW.tag_id` (the `last_used_at`/`updated_at` timestamps are
not modelled). -/
def bumpUsage (tags : List TagRow) (tagId : UUID) : List TagRow :=
  tags.map (fun t => if t.id == tagId then { t with usageCount := t.usageCount + 1 } else t)

/-- The `AFTER DELETE` triggers `trg_file_tag_delete` /
`trg_folder_tag_delete`: `UPDATE tags SET usage_count =
MAX(usage_count - 1, 0) WHERE id = OLD.tag_id`; over `Nat`, truncated
subtraction is exactly the floored decrement. -/
def dropUsage (tags : List TagRow) (tagId : UUID) : List TagRow :=
  tags.map (fun t => if t.id == tagId then { t with usageCount := t.usageCount - 1 } else t)

/-- One `INSERT INTO file_tags (file_id, tag_id, ...) VALUES (?, ?, ...)`:
fails on a duplicate composite primary key or a violated foreign key
(`PRAGMA foreign_keys = ON`); on success the insert trigger fires. -/
def insertFileTag (db : DBState) (fileId tagId : UUID) : Except ServiceError DBState :=
  if db.fileTags.contains (fileId, tagId) then Except.error ServiceError.persistenceError
  else if !(db.files.any (fun r => r.id == fileId)) then Except.error ServiceError.persistenceError
  else if !(db.tags.any (fun t => t.id == tagId)) then Except.error ServiceError.persistenceError
  else Except.ok { db with
    fileTags := db.fileTags ++ [(fileId, tagId)]
    tags := bumpUsage db.tags tagId }

/-- One `INSERT INTO folder_tags (folder_id, tag_id, ...)`. -/
def insertFolderTag (db : DBState) (folderId tagId : UUID) : Except ServiceError DBState :=
  if db.folderTags.contains (folderId, tagId) then Except.error ServiceError.persistenceError
  else if !(db.folders.any (fun r => r.id == folderId)) then Except.error ServiceError.persistenceError
  else if !(db.tags.any (fun t => t.id == tagId)) then Except.error ServiceError.persistenceError
  else Except.ok { db with
    folderTags := db.folderTags ++ [(folderId, tagId)]
    tags := bumpUsage db.tags tagId }

/-- `TagAssignmentRepository.getFileTagIds(fileId)`:
`SELECT tag_id FROM file_tags WHERE file_id = ?` (no liveness filter). -/
def getFileTagIds (db : DBState) (fileId : UUID) : List UUID :=
  (db.fileTags.filter (fun r => r.1 == fileId)).map (fun r => r.2)

/-- `TagAssignmentRepository.getFolderTagIds(folderId)`. -/
def getFolderTagIds (db : DBState) (folderId : UUID) : List UUID :=
  (db.folderTags.filter (fun r => r.1 == folderId)).map (fun r => r.2)

/-- The statement list of the assignment transaction, executed in order
inside `withTransactionAsync` (all-or-nothing: an error rolls the whole
batch back, which the `Except` threading models by discarding the
partial state). -/
def insertFileTagLoop (db : DBState) (fileId : UUID) : List UUID → Except ServiceError DBState
  | [] => Except.ok db
  | tagId :: rest => do
    let db' ← insertFileTag db fileId tagId
    insertFileTagLoop db' fileId rest

/-- Folder-side assignment transaction. -/
def insertFolderTagLoop (db : DBState) (folderId : UUID) : List UUID → Except ServiceError DBState
  | [] => Except.ok db
  | tagId :: rest => do
    let db' ← insertFolderTag db folderId tagId
    insertFolderTagLoop db' folderId rest

/-- `TagAssignmentRepository.assignTagsToFile(fileId, tagIds)`: skip the
tag ids already assigned to the file, then insert the remaining pairs in
one transaction. -/
def assignTagsToFile (db : DBState) (fileId : UUID) (tagIds : List UUID) :
    Except ServiceError DBState :=
  if tagIds.length == 0 then Except.ok db
  else
    let existingTagIds := getFileTagIds db fileId
    let newTagIds := tagIds.filter (fun id => !(existingTagIds.contains id))
    if newTagIds.length == 0 then Except.ok db
    else insertFileTagLoop db fileId newTagIds

/-- `TagAssignmentRepository.assignTagsToFolder(folderId, tagIds)`. -/
def assignTagsToFolder (db : DBState) (folderId : UUID) (tagIds : List UUID) :
    Except ServiceError DBState :=
  if tagIds.length == 0 then Except.ok db
  else
    let existingTagIds := getFolderTagIds db folderId
    let newTagIds := tagIds.filter (fun id => !(existingTagIds.contains id))
    if newTagIds.length == 0 then Except.ok db
    else insertFolderTagLoop db folderId newTagIds

/-- `TagAssignmentRepository.removeTagsFromFile(fileId, tagIds)`:
`DELETE FROM file_tags WHERE file_id = ? AND tag_id IN (...)`; the
delete trigger fires once per removed row. -/
def removeTagsFromFile (db : DBState) (fileId : UUID) (tagIds : List UUID) :
    Except ServiceError DBState :=
  if tagIds.length == 0 then Except.ok db
  else
    let hit := fun (r : UUID × UUID) => r.1 == fileId && tagIds.contains r.2
    let removed := db.fileTags.filter hit
    Except.ok { db with
      fileTags := db.fileTags.filter (fun r => !(hit r))
      tags := removed.foldl (fun ts r => dropUsage ts r.2) db.tags }

/-- `TagAssignmentRepository.removeTagsFromFolder(folderId, tagIds)`. -/
def removeTagsFromFolder (db : DBState) (folderId : UUID) (tagIds : List UUID) :
    Except ServiceError DBState :=
  if tagIds.length == 0 then Except.ok db
  else
    let hit := fun (r : UUID × UUID) => r.1 == folderId && tagIds.contains r.2
    let removed := db.folderTags.filter hit
    Except.ok { db with
      folderTags := db.folderTags.filter (fun r => !(hit r))
      tags := removed.foldl (fun ts r => dropUsage ts r.2) db.tags }

/-- `TagTreeNode` from `types/repositories/tag`: the tag, its child
nodes, and the stored `totalUsage` aggregate. -/
inductive TagTreeNode where
  | mk (tag : TagRow) (children : List TagTreeNode) (totalUsage : Nat)
deriving Repr

/-- The stored `totalUsage` of a node. -/
def TagTreeNode.total : TagTreeNode → Nat
  | .mk _ _ u => u

/-- The tag at a node. -/
def TagTreeNode.tagOf : TagTreeNode → TagRow
  | .mk t _ _ => t

/-- The children of a node. -/
def TagTreeNode.childrenOf : TagTreeNode → List TagTreeNode
  | .mk _ c _ => c

/-- `TagRepositoryImplementation.buildTagTreeNode(tag)`: fetch children
by `parentId`, build each of them recursively (the `for` loop over the
children is the `mapM`), and store
`totalUsage = tag.usageCount + Σ children.totalUsage`.  The recursion is
unbounded in the source (the tag hierarchy carries no cycle check), so
it is fueled here; `none` = fuel ran out. -/
def buildTagTreeNode (db : DBState) : Nat → TagRow → Option TagTreeNode
  | 0, _ => none
  | fuel + 1, tag => do
    let childNodes ← (tagFindByParentId db.tags tag.id).mapM (buildTagTreeNode db fuel)
    some (TagTreeNode.mk tag childNodes
      (tag.usageCount + (childNodes.map TagTreeNode.total).sum))

/-- `TagRepositoryImplementation.getTagTree()`: take `findAll({ parentId:
null })` as the root set and build one tree per returned tag. -/
def getTagTree (db : DBState) (fuel : Nat) : Option (List TagTreeNode) :=
  (tagFindAll db.tags { parentId := none }).mapM (buildTagTreeNode db fuel)

/-- Number of assignment rows carrying the given tag id
(`SELECT COUNT(*) ... WHERE tag_id = ?`). -/
def pairCount (l : List (UUID × UUID)) (i : UUID) : Nat :=
  l.countP (fun r => r.2 == i)

/-- Number of occurrences of an id in an id list. -/
def idCount (l : List UUID) (i : UUID) : Nat :=
  l.countP (fun j => j == i)

/-- The derived-counter invariant of the tags table: every stored
`usage_count` equals the number of `file_tags` rows plus the number of
`folder_tags` rows carrying that tag id. -/
def usageInv (db : DBState) : Prop :=
  ∀ t ∈ db.tags, t.usageCount = pairCount db.fileTags t.id + pairCount db.folderTags t.id

instance (db : DBState) : Decidable (usageInv db) := by
  unfold usageInv
  infer_instance

/-- The acyclicity precondition on the stored folder forest: some rank
function strictly decreases along the `parentId` edge of every live row.
Stated through `match` so that it is decidable on concrete stores. -/
def rankDecreases (rank : UUID → Nat) (s : List Folder) : Prop :=
  ∀ f ∈ s, f.status ≠ FolderStatus.deleted →
    match f.parentId with
    | some p => rank p < rank f.id
    | none => True

instance (rank : UUID → Nat) (s : List Folder) : Decidable (rankDecreases rank s) := by
  unfold rankDecreases
  have : ∀ f : Folder,
      Decidable (f.status ≠ FolderStatus.deleted →
        match f.parentId with
        | some p => rank p < rank f.id
        | none => True) := by
    intro f
    rcases h : f.parentId with _ | p <;> simp only [h] <;> infer_instance
  exact @List.decidableBAll _ _ this s

/-- Concrete folder row with default display fields, for the concrete
stores used in witnesses and counterexamples. -/
def mkFolder (i nm : String) (pid : Option UUID) (st : FolderStatus) (prot sys : Bool) : Folder :=
  { id := i, name := nm, description := none, parentId := pid, path := nm,
    level := 0, status := st, ftype := FolderType.regular,
    isProtected := prot, isSystemFolder := sys }

/-- Concrete tag row with a fixed valid color. -/
def mkTag (i nm : String) (ty : TagType) (act : Bool) (u : Nat) (pid : Option UUID) : TagRow :=
  { id := i, name := nm, description := none, colorHex := "#ffffff",
    ttype := ty, isActive := act, usageCount := u, parentId := pid }

/-- Concrete live file row. -/
def mkFile (i nm : String) (fid : Option UUID) : FileRow :=
  { id := i, name := nm, folderId := fid, status := FileStatus.active }

/-- Store for the tag-tree demonstration: one active root tag `t1` and
one active child tag `t2` under it. -/
def tagTreeExample : DBState :=
  { tags := [mkTag "t1" "root" TagType.user true 2 none,
             mkTag "t2" "child" TagType.user true 3 (some "t1")] }

theorem reachUp_of_walkUp_found (s : List Folder) (a : UUID) :
    ∀ (fuel : Nat) (b : UUID), walkUp s a fuel b = WalkResult.found → ReachUp s a b := by
  intro fuel
  induction fuel with
  | zero =>
    intro b h
    simp [walkUp] at h
  | succ n ih =>
    intro b h
    by_cases hb : b = a
    · subst hb
      exact ReachUp.refl
    · unfold walkUp at h
      rw [if_neg (by simpa using hb)] at h
      rcases hf : folderFindById s b with _ | f
      · simp [hf] at h
      · rcases hp : f.parentId with _ | p
        · simp [hf, hp] at h
        · by_cases hpe : p = ""
          · simp [hf, hp, hpe] at h
          · simp only [hf, hp] at h
            rw [if_neg (by simpa using hpe)] at h
            exact ReachUp.step hf hp hpe (ih p h)

theorem walkUp_of_reachUp (s : List Folder) (a b : UUID) (h : ReachUp s a b) :
    ∀ fuel, walkUp s a fuel b = WalkResult.found ∨ walkUp s a fuel b = WalkResult.outOfFuelW := by
  induction h with
  | refl =>
    intro fuel
    cases fuel with
    | zero => exact Or.inr rfl
    | succ n =>
      left
      simp [walkUp]
  | @step b p f hf hp hne _ ih =>
    intro fuel
    cases fuel with
    | zero => exact Or.inr rfl
    | succ n =>
      by_cases hb : b = a
      · left
        unfold walkUp
        rw [if_pos (by simpa using hb)]
      · unfold walkUp
        rw [if_neg (by simpa using hb)]
        simp only [hf, hp]
        rw [if_neg (by simpa using hne)]
        exact ih n

theorem except_bind_eq_error {α β : Type} (x : Except ServiceError α)
    (f : α → Except ServiceError β) (e : ServiceError) :
    (x >>= f) = Except.error e ↔ x = Except.error e ∨ ∃ a, x = Except.ok a ∧ f a = Except.error e := by
  cases x <;> simp [Bind.bind, Except.bind]

theorem except_pure_bind {α β : Type} (a : α) (f : α → Except ServiceError β) :
    ((pure a : Except ServiceError α) >>= f) = f a := rfl

theorem except_ok_bind {α β : Type} (a : α) (f : α → Except ServiceError β) :
    (Except.ok a >>= f) = f a := rfl

theorem except_error_bind {α β : Type} (e : ServiceError) (f : α → Except ServiceError β) :
    (Except.error e >>= f) = Except.error e := rfl

theorem validateParentFolder_ne_cycle (s : List Folder) (p : UUID) :
    validateParentFolder s p ≠ Except.error ServiceError.cycleDetected := by
  unfold validateParentFolder
  rcases folderFindById s p with _ | parent <;> simp
  split <;> simp

theorem validateUniqueFolderName_ne_cycle (s : List Folder) (name : String)
    (parentId excludeFolderId : Option UUID) :
    validateUniqueFolderName s name parentId excludeFolderId ≠
      Except.error ServiceError.cycleDetected := by
  unfold validateUniqueFolderName
  split <;> (dsimp only; split <;> simp)

theorem folderRepoUpdate_ne_cycle (s : List Folder) (id : UUID) (u : FolderUpdateInput) :
    folderRepoUpdate s id u ≠ Except.error ServiceError.cycleDetected := by
  unfold folderRepoUpdate
  rcases folderFindById s id with _ | f <;> simp
  split <;> simp

/-- C1.  For a live folder `a` and a target parent `b` (with enough fuel
for the ancestor walk of `validateNotDescendant` to finish),
`moveFolder a b` fails with the cycle error exactly when `b` is `a` or a
descendant of `a` along the live stored `parentId` chain — where a chain
interrupted by a missing ancestor row does not connect, so such a move
proceeds past the cycle check. -/
theorem moveFolder_cycleDetected_iff_descendant (db : DBState) (fuel : Nat) (a b : UUID)
    (fa : Folder) (ha : folderFindById db.folders a = some fa) (hbne : b ≠ "")
    (hterm : walkUp db.folders a fuel b ≠ WalkResult.outOfFuelW) :
    moveFolder db fuel a (some b) = Except.error ServiceError.cycleDetected ↔
      ReachUp db.folders a b := by
  unfold moveFolder
  simp only [ha]
  have htruthy : truthyOpt (some b) = some b := by
    simp [truthyOpt, hbne]
  simp only [htruthy, except_pure_bind]
  rcases hw : walkUp db.folders a fuel b with _ | _ | _
  · constructor
    · intro _
      exact reachUp_of_walkUp_found db.folders a fuel b hw
    · intro _
      simp only [validateNotDescendant, hw, except_error_bind]
  · constructor
    · intro h
      exfalso
      simp only [validateNotDescendant, hw, except_ok_bind] at h
      rw [except_bind_eq_error] at h
      rcases h with h | ⟨_, _, h⟩
      · exact validateParentFolder_ne_cycle db.folders b h
      · rw [except_bind_eq_error] at h
        rcases h with h | ⟨_, _, h⟩
        · exact validateUniqueFolderName_ne_cycle db.folders fa.name (some b) (some a) h
        · rw [except_bind_eq_error] at h
          rcases h with h | ⟨⟨s', f'⟩, _, h⟩
          · exact folderRepoUpdate_ne_cycle db.folders a _ h
          · simp [Pure.pure, Except.pure] at h
    · intro hr
      exfalso
      rcases walkUp_of_reachUp db.folders a b hr fuel with h | h <;> rw [hw] at h <;> exact
        WalkResult.noConfusion h
  · exact absurd hw hterm

theorem folderFindById_id_live {s : List Folder} {b : UUID} {f : Folder}
    (hf : folderFindById s b = some f) :
    f ∈ s ∧ f.id = b ∧ f.status ≠ FolderStatus.deleted := by
  refine ⟨List.mem_of_find?_eq_some hf, ?_⟩
  have hpred := List.find?_some hf
  simp only [Bool.and_eq_true, beq_iff_eq, Bool.not_eq_true'] at hpred
  exact ⟨hpred.1, by simpa using hpred.2⟩

theorem walkUp_terminates (s : List Folder) (rank : UUID → Nat)
    (hacyc : rankDecreases rank s) (a : UUID) :
    ∀ (fuel : Nat) (b : UUID), rank b < fuel → walkUp s a fuel b ≠ WalkResult.outOfFuelW := by
  intro fuel
  induction fuel with
  | zero =>
    intro b hb
    exact absurd hb (Nat.not_lt_zero _)
  | succ n ih =>
    intro b hb
    unfold walkUp
    by_cases hba : b = a
    · rw [if_pos (by simpa using hba)]
      simp
    · rw [if_neg (by simpa using hba)]
      rcases hf : folderFindById s b with _ | f
      · simp [hf]
      · rcases hp : f.parentId with _ | p
        · simp [hf, hp]
        · by_cases hpe : p = ""
          · simp [hf, hp, hpe]
          · simp only [hf, hp]
            rw [if_neg (by simpa using hpe)]
            obtain ⟨hmem, hid, hlive⟩ := folderFindById_id_live hf
            have hstep := hacyc f hmem hlive
            simp only [hp] at hstep
            rw [hid] at hstep
            exact ih p (by omega)

theorem getFolderPathWalk_terminates (s : List Folder) (rank : UUID → Nat)
    (hacyc : rankDecreases rank s) :
    ∀ (fuel : Nat) (b : UUID), rank b < fuel → getFolderPathWalk s fuel (some b) ≠ none := by
  intro fuel
  induction fuel with
  | zero =>
    intro b hb
    exact absurd hb (Nat.not_lt_zero _)
  | succ n ih =>
    intro b hb
    unfold getFolderPathWalk
    by_cases hbe : b = ""
    · rw [if_pos (by simpa using hbe)]
      simp
    · rw [if_neg (by simpa using hbe)]
      rcases hf : folderFindById s b with _ | f
      · simp [hf]
      · simp only [hf]
        rcases htp : truthyOpt f.parentId with _ | p
        · simp [htp, getFolderPathWalk]
        · obtain ⟨hp, hpe⟩ : f.parentId = some p ∧ p ≠ "" := by
            rcases hq : f.parentId with _ | q
            · simp [truthyOpt, hq] at htp
            · by_cases hqe : q = ""
              · simp [truthyOpt, hq, hqe] at htp
              · have hqp : q = p := by
                  simpa [truthyOpt, hq, hqe] using htp
                subst hqp
                exact ⟨rfl, hqe⟩

          obtain ⟨hmem, hid, hlive⟩ := folderFindById_id_live hf
          have hstep := hacyc f hmem hlive
          simp only [hp] at hstep
          rw [hid] at hstep
          have hrec := ih p (by omega)
          rcases hr : getFolderPathWalk s n (some p) with _ | l
          · exact absurd hr hrec
          · simp [htp, hr]

/-- C10.  If the stored folder forest is acyclic — witnessed by a rank
function that strictly decreases along every live `parentId` edge —
then both embedded ancestor loops (`validateNotDescendant`'s walk and
`getFolderPath`'s walk) finish on any starting id once the fuel exceeds
the start's rank: each step reaches the moving folder, a parentless or
missing row, or strictly descends the rank. -/
theorem ancestor_walks_terminate (s : List Folder) (rank : UUID → Nat)
    (hacyc : rankDecreases rank s) (a b : UUID) (fuel : Nat) (hfuel : rank b < fuel) :
    walkUp s a fuel b ≠ WalkResult.outOfFuelW ∧ getFolderPath s fuel b ≠ none := by
  refine ⟨walkUp_terminates s rank hacyc a fuel b hfuel, ?_⟩
  unfold getFolderPath
  exact getFolderPathWalk_terminates s rank hacyc fuel b hfuel

/-- Witness for C10: the two-folder store `b → a` with rank `b ↦ 1, _ ↦ 0`
and fuel `2`. -/
theorem ancestor_walks_terminate_witness :
    walkUp [mkFolder "a" "A" none FolderStatus.active false false,
            mkFolder "b" "B" (some "a") FolderStatus.active false false]
        "x" 2 "b" ≠ WalkResult.outOfFuelW ∧
    getFolderPath [mkFolder "a" "A" none FolderStatus.active false false,
            mkFolder "b" "B" (some "a") FolderStatus.active false false] 2 "b" ≠ none :=
  ancestor_walks_terminate _ (fun i => if i == "b" then 1 else 0) (by decide) "x" "b" 2
    (by decide)

/-- Witness for C1: in the store `b → a`, moving `a` under `b` fails
with the cycle error exactly when `b` descends from `a` (which here it
does). -/
theorem moveFolder_cycleDetected_iff_descendant_witness :
    moveFolder
        { folders := [mkFolder "a" "A" none FolderStatus.active false false,
                      mkFolder "b" "B" (some "a") FolderStatus.active false false] }
        5 "a" (some "b") = Except.error ServiceError.cycleDetected ↔
      ReachUp [mkFolder "a" "A" none FolderStatus.active false false,
               mkFolder "b" "B" (some "a") FolderStatus.active false false] "a" "b" :=
  moveFolder_cycleDetected_iff_descendant
    { folders := [mkFolder "a" "A" none FolderStatus.active false false,
                  mkFolder "b" "B" (some "a") FolderStatus.active false false] }
    5 "a" "b" (mkFolder "a" "A" none FolderStatus.active false false)
    (by decide) (by decide) (by decide)

/-- C3.  `FolderService.deleteFolder` consults neither `isProtected` nor
`isSystemFolder`, and the status flip goes through the repository's
`BaseModel.update` spread (not through `FolderModel.setStatus`, whose
guard would reject deleting a protected folder): deleting an empty
protected folder and an empty system folder both succeed and both set
`status = deleted`, contradicting the documented guard. -/
theorem deleteFolder_deletes_protected_and_system :
    (deleteFolder { folders := [mkFolder "p1" "P" none FolderStatus.active true false] }
        "p1" false).toOption.map (fun r => r.1.folders.map Folder.status) =
      some [FolderStatus.deleted] ∧
    (deleteFolder { folders := [mkFolder "s1" "S" none FolderStatus.active false true] }
        "s1" false).toOption.map (fun r => r.1.folders.map Folder.status) =
      some [FolderStatus.deleted] ∧
    (mkFolder "p1" "P" none FolderStatus.active true false).isProtected = true ∧
    (mkFolder "s1" "S" none FolderStatus.active false true).isSystemFolder = true :=
  ⟨rfl, rfl, rfl, rfl⟩

theorem createFolder_ok_factory (db db' : DBState) (newId : UUID) (input : CreateFolderInput)
    (f : Folder) (h : createFolder db newId input = Except.ok (db', f)) :
    f = folderFactoryCreate newId input := by
  unfold createFolder at h
  rcases ht : truthyOpt input.parentId with _ | pid <;> simp only [ht] at h
  · rw [except_pure_bind] at h
    cases hv : validateUniqueFolderName db.folders input.name none none with
    | error e =>
      rw [hv, except_error_bind] at h
      cases h
    | ok u =>
      rw [hv, except_ok_bind] at h
      unfold folderRepoCreate at h
      by_cases hval : folderValidate (folderFactoryCreate newId input)
      · rw [if_pos hval] at h
        rw [except_ok_bind] at h
        simp only [Pure.pure] at h
        cases h
        rfl
      · rw [if_neg hval] at h
        rw [except_error_bind] at h
        cases h
  · cases hp : validateParentFolder db.folders pid with
    | error e =>
      rw [hp, except_error_bind] at h
      cases h
    | ok u =>
      rw [hp, except_ok_bind] at h
      cases hv : validateUniqueFolderName db.folders input.name (some pid) none with
      | error e =>
        rw [hv, except_error_bind] at h
        cases h
      | ok u' =>
        rw [hv, except_ok_bind] at h
        unfold folderRepoCreate at h
        by_cases hval : folderValidate (folderFactoryCreate newId input)
        · rw [if_pos hval] at h
          rw [except_ok_bind] at h
          simp only [Pure.pure] at h
          cases h
          rfl
        · rw [if_neg hval] at h
          rw [except_error_bind] at h
          cases h

/-- C4 (amended).  A successfully created folder always has `level = 0`
(never `parentLevel + 1`), and its stored path is the parent **id**
followed by `'/'` and the raw input name when a parent was given, and
the raw input name otherwise — not the parent's path. -/
theorem createFolder_level_zero_and_id_path (db db' : DBState) (newId : UUID)
    (input : CreateFolderInput) (f : Folder)
    (h : createFolder db newId input = Except.ok (db', f)) :
    f.level = 0 ∧
    (∀ pid, input.parentId = some pid → pid ≠ "" → f.path = pid ++ "/" ++ input.name) ∧
    (input.parentId = none → f.path = input.name) := by
  have hf := createFolder_ok_factory db db' newId input f h
  subst hf
  refine ⟨rfl, ?_, ?_⟩
  · intro pid hpid hne
    simp [folderFactoryCreate, hpid, hne]
  · intro hnone
    simp [folderFactoryCreate, hnone]

/-- Witness for the amended C4: creating `Child` under the parent row
with id `p1` and path `Parent` stores path `p1/Child` and level `0`. -/
theorem createFolder_level_zero_and_id_path_witness :
    (folderFactoryCreate "c1" { name := "Child", parentId := some "p1" }).path =
      "p1" ++ "/" ++ "Child" ∧
    (folderFactoryCreate "c1" { name := "Child", parentId := some "p1" }).level = 0 := by
  obtain ⟨h1, h2, -⟩ := createFolder_level_zero_and_id_path
    { folders := [mkFolder "p1" "Parent" none FolderStatus.active false false] }
    { folders := [mkFolder "p1" "Parent" none FolderStatus.active false false,
                  folderFactoryCreate "c1" { name := "Child", parentId := some "p1" }] }
    "c1" { name := "Child", parentId := some "p1" }
    (folderFactoryCreate "c1" { name := "Child", parentId := some "p1" }) (by rfl)
  exact ⟨h2 "p1" rfl (by decide), h1⟩

/-- C4 counterexample: the parent row has path `Parent` and level `0`,
so the claim predicts child path `Parent/Child` and level `1`; the code
instead stores `p1/Child` (the parent id) and level `0`. -/
theorem createFolder_parent_path_counterexample :
    ((createFolder { folders := [mkFolder "p1" "Parent" none FolderStatus.active false false] }
        "c1" { name := "Child", parentId := some "p1" }).toOption.map
        (fun r => (r.2.path, r.2.level))) = some ("p1/Child", 0) ∧
    ("p1/Child" ≠ "Parent" ++ "/" ++ "Child" ∧ (0 : Nat) ≠ 0 + 1) :=
  ⟨rfl, by decide, by decide⟩

/-- C5.  In `validateUniqueFolderName` with a `null` parent the sibling
set is `findAll({ parentId: null })`, whose `parent_id` clause is dropped
because `null` is falsy, so it returns every active folder: creating
`Docs` at the root fails with the duplicate-name error even though the
only `Docs` lives under parent `a1` and no root-level folder is named
`Docs`. -/
theorem createFolder_root_blocked_by_nonsibling :
    createFolder { folders := [mkFolder "a1" "A" none FolderStatus.active false false,
                               mkFolder "d1" "Docs" (some "a1") FolderStatus.active false false] }
        "x1" { name := "Docs" } = Except.error ServiceError.duplicateName ∧
    ([mkFolder "a1" "A" none FolderStatus.active false false,
      mkFolder "d1" "Docs" (some "a1") FolderStatus.active false false].filter
        (fun f => (f.parentId == none) && !(f.status == FolderStatus.deleted) &&
          (f.name == "Docs"))).length = 0 :=
  ⟨rfl, rfl⟩

/-- C8.  `getTagTree` takes `findAll({ parentId: null })` as its root
set; the falsy filter value drops the `parent_id IS NULL` clause, so the
"roots" are ALL active tags: with root `t1` and child `t2` the result
has two trees (`[t1 [t2]]` and `[t2]`) although there is exactly one
root tag, and `t2` appears twice in the forest.  The `totalUsage`
recurrence itself holds at every node. -/
theorem getTagTree_duplicates_nonroot_tags :
    getTagTree tagTreeExample 3 =
      some [TagTreeNode.mk (mkTag "t1" "root" TagType.user true 2 none)
              [TagTreeNode.mk (mkTag "t2" "child" TagType.user true 3 (some "t1")) [] 3] 5,
            TagTreeNode.mk (mkTag "t2" "child" TagType.user true 3 (some "t1")) [] 3] ∧
    (tagTreeExample.tags.filter (fun t => t.isActive && (t.parentId == none))).map TagRow.id =
      ["t1"] ∧
    (getTagTree tagTreeExample 3).map List.length = some 2 :=
  ⟨rfl, rfl, rfl⟩

theorem tagFindById_of_mem_nodup {tags : List TagRow} {t : TagRow}
    (hmem : t ∈ tags) (hnodup : (tags.map TagRow.id).Nodup) :
    tagFindById tags t.id = if t.isActive then some t else none := by
  induction tags with
  | nil => cases hmem
  | cons hd tl ih =>
    rw [List.map_cons, List.nodup_cons] at hnodup
    rcases List.mem_cons.mp hmem with rfl | hmem'
    · unfold tagFindById
      cases hact : t.isActive
      · rw [List.find?_cons_of_neg _ (by simp [hact])]
        rw [if_neg (by simp)]
        rw [List.find?_eq_none]
        intro x hx
        simp only [Bool.and_eq_true, beq_iff_eq, not_and]
        intro hxid
        exact absurd (hxid ▸ List.mem_map_of_mem TagRow.id hx) hnodup.1
      · rw [List.find?_cons_of_pos _ (by simp [hact])]
        rw [if_pos rfl]
    · have hne : hd.id ≠ t.id := by
        intro heq
        exact absurd (heq ▸ List.mem_map_of_mem TagRow.id hmem') hnodup.1
      unfold tagFindById
      rw [List.find?_cons_of_neg _ (by simp [hne])]
      exact ih hmem' hnodup.2

/-- C9.  `TagService.deleteTag` can never deactivate a tag whose type is
`system`: with a live (active) system tag it stops at the protected-
resource error, and with an inactive one `findById` hides the row and it
stops at not-found; in both cases it returns an error and writes
nothing, so the stored row (including `isActive`) is untouched. -/
theorem deleteTag_system_always_fails (db : DBState) (t : TagRow)
    (hmem : t ∈ db.tags) (hsys : t.ttype = TagType.system)
    (hnodup : (db.tags.map TagRow.id).Nodup) :
    (∃ e, deleteTag db t.id = Except.error e) ∧
    (t.isActive = true → deleteTag db t.id = Except.error ServiceError.protectedResource) := by
  have hfind := tagFindById_of_mem_nodup hmem hnodup
  cases hact : t.isActive
  · rw [hact, if_neg (by simp)] at hfind
    constructor
    · refine ⟨ServiceError.notFound, ?_⟩
      simp [deleteTag, hfind]
    · intro hc
      simp at hc
  · rw [hact, if_pos rfl] at hfind
    have hres : deleteTag db t.id = Except.error ServiceError.protectedResource := by
      simp [deleteTag, hfind, hsys]
    exact ⟨⟨_, hres⟩, fun _ => hres⟩

/-- Witness for C9: a live system tag in a one-tag store. -/
theorem deleteTag_system_always_fails_witness :
    (∃ e, deleteTag { tags := [mkTag "t1" "Importante" TagType.system true 0 none] } "t1" =
      Except.error e) ∧
    ((mkTag "t1" "Importante" TagType.system true 0 none).isActive = true →
      deleteTag { tags := [mkTag "t1" "Importante" TagType.system true 0 none] } "t1" =
        Except.error ServiceError.protectedResource) :=
  deleteTag_system_always_fails
    { tags := [mkTag "t1" "Importante" TagType.system true 0 none] }
    (mkTag "t1" "Importante" TagType.system true 0 none)
    (by decide) (by decide) (by decide)

/-- C7.  For a live folder with at least one live direct child (file or
subfolder): without `force` the delete stops at the non-empty-folder
error before any write, so the stored status is unchanged; with `force`
the emptiness check is skipped and the status flip to `deleted` goes
through regardless of the contents. -/
theorem deleteFolder_nonempty_requires_force (db : DBState) (fid : UUID) (f : Folder)
    (hf : folderFindById db.folders fid = some f)
    (hvalid : folderValidate f = true)
    (hnonempty : 0 < (getFolderContentCount db fid).1 + (getFolderContentCount db fid).2) :
    deleteFolder db fid false = Except.error ServiceError.nonEmptyFolder ∧
    ∃ db', deleteFolder db fid true = Except.ok (db', true) ∧
      (∀ g ∈ db'.folders, g.id = fid → g.status = FolderStatus.deleted) := by
  have hvempty : validateFolderEmpty db fid = Except.error ServiceError.nonEmptyFolder := by
    unfold validateFolderEmpty
    rw [if_pos]
    simp only [Bool.or_eq_true, decide_eq_true_eq]
    omega
  have hval2 : folderValidate (applyFolderUpdate f { status := some FolderStatus.deleted }) =
      true := hvalid
  constructor
  · simp [deleteFolder, hf, hvempty]
  · refine ⟨{ db with folders := db.folders.map (fun g =>
        if g.id == fid then
          { applyFolderUpdate f { status := some FolderStatus.deleted } with
            id := g.id, isSystemFolder := g.isSystemFolder }
        else g) }, ?_, ?_⟩
    · simp [deleteFolder, hf, folderRepoUpdate, hval2]
    · intro g hg hgid
      rcases List.mem_map.mp hg with ⟨g0, hg0, rfl⟩
      by_cases h0 : (g0.id == fid) = true
      · simp only [h0, if_true]
        simp [applyFolderUpdate]
      · rw [if_neg h0] at hgid
        exact absurd (by simp [hgid] : (g0.id == fid) = true) h0

/-- Witness for C7: deleting the parent of one live subfolder fails
without force and succeeds (status flipped) with force. -/
theorem deleteFolder_nonempty_requires_force_witness :
    deleteFolder { folders := [mkFolder "p" "P" none FolderStatus.active false false,
                               mkFolder "c" "C" (some "p") FolderStatus.active false false] }
        "p" false = Except.error ServiceError.nonEmptyFolder ∧
    ∃ db', deleteFolder { folders := [mkFolder "p" "P" none FolderStatus.active false false,
                               mkFolder "c" "C" (some "p") FolderStatus.active false false] }
        "p" true = Except.ok (db', true) ∧
      (∀ g ∈ db'.folders, g.id = "p" → g.status = FolderStatus.deleted) :=
  deleteFolder_nonempty_requires_force
    { folders := [mkFolder "p" "P" none FolderStatus.active false false,
                  mkFolder "c" "C" (some "p") FolderStatus.active false false] }
    "p" (mkFolder "p" "P" none FolderStatus.active false false)
    (by decide) (by decide) (by decide)

theorem pairCount_append_single (l : List (UUID × UUID)) (x y i : UUID) :
    pairCount (l ++ [(x, y)]) i = pairCount l i + (if y == i then 1 else 0) := by
  unfold pairCount
  rw [List.countP_append]
  simp [List.countP_cons]

theorem bumpUsage_mem_inv {tags : List TagRow} {pairs : List (UUID × UUID)}
    {other : UUID → Nat} (x tid : UUID)
    (h : ∀ t ∈ tags, t.usageCount = pairCount pairs t.id + other t.id) :
    ∀ t ∈ bumpUsage tags tid,
      t.usageCount = pairCount (pairs ++ [(x, tid)]) t.id + other t.id := by
  intro t ht
  obtain ⟨t0, ht0, rfl⟩ := List.mem_map.mp ht
  have h0 := h t0 ht0
  by_cases hc : (t0.id == tid) = true
  · rw [if_pos hc]
    have ht' : (tid == t0.id) = true := by
      rw [beq_iff_eq]
      rw [beq_iff_eq] at hc
      exact hc.symm
    simp only [pairCount_append_single, ht', if_true]
    simpa using by omega
  · rw [if_neg hc]
    have ht' : (tid == t0.id) = false := by
      rw [beq_eq_false_iff_ne]
      rw [beq_iff_eq] at hc
      · exact fun he => hc he.symm
    simp only [pairCount_append_single, ht']
    simpa using by omega

theorem insertFileTag_ok {db db' : DBState} {x tid : UUID}
    (h : insertFileTag db x tid = Except.ok db') :
    db' = { db with fileTags := db.fileTags ++ [(x, tid)], tags := bumpUsage db.tags tid } := by
  unfold insertFileTag at h
  split at h
  · cases h
  · split at h
    · cases h
    · split at h
      · cases h
      · cases h
        rfl

theorem insertFolderTag_ok {db db' : DBState} {x tid : UUID}
    (h : insertFolderTag db x tid = Except.ok db') :
    db' = { db with folderTags := db.folderTags ++ [(x, tid)], tags := bumpUsage db.tags tid } := by
  unfold insertFolderTag at h
  split at h
  · cases h
  · split at h
    · cases h
    · split at h
      · cases h
      · cases h
        rfl

theorem insertFileTagLoop_inv (x : UUID) :
    ∀ (ids : List UUID) (db db' : DBState), usageInv db →
      insertFileTagLoop db x ids = Except.ok db' → usageInv db' := by
  intro ids
  induction ids with
  | nil =>
    intro db db' hinv h
    unfold insertFileTagLoop at h
    cases h
    exact hinv
  | cons tid rest ih =>
    intro db db' hinv h
    unfold insertFileTagLoop at h
    cases hins : insertFileTag db x tid with
    | error e =>
      rw [hins, except_error_bind] at h
      cases h
    | ok db1 =>
      rw [hins, except_ok_bind] at h
      refine ih db1 db' ?_ h
      rw [insertFileTag_ok hins]
      intro t ht
      exact bumpUsage_mem_inv x tid (fun t' ht' => hinv t' ht') t ht

theorem insertFolderTagLoop_inv (x : UUID) :
    ∀ (ids : List UUID) (db db' : DBState), usageInv db →
      insertFolderTagLoop db x ids = Except.ok db' → usageInv db' := by
  intro ids
  induction ids with
  | nil =>
    intro db db' hinv h
    unfold insertFolderTagLoop at h
    cases h
    exact hinv
  | cons tid rest ih =>
    intro db db' hinv h
    unfold insertFolderTagLoop at h
    cases hins : insertFolderTag db x tid with
    | error e =>
      rw [hins, except_error_bind] at h
      cases h
    | ok db1 =>
      rw [hins, except_ok_bind] at h
      refine ih db1 db' ?_ h
      rw [insertFolderTag_ok hins]
      intro t ht
      have hsw : ∀ t' ∈ db.tags,
          t'.usageCount = pairCount db.folderTags t'.id + pairCount db.fileTags t'.id := by
        intro t' ht'
        rw [Nat.add_comm]
        exact hinv t' ht'
      have := bumpUsage_mem_inv x tid hsw t ht
      rw [Nat.add_comm] at this
      exact this

theorem countP_filter_split {α : Type} (p q : α → Bool) :
    ∀ l : List α,
      l.countP p = (l.filter q).countP p + (l.filter (fun a => !(q a))).countP p := by
  intro l
  induction l with
  | nil => simp
  | cons a l ih =>
    by_cases hq : q a = true <;> by_cases hp : p a = true <;>
      simp [List.countP_cons, List.filter_cons, hq, hp, ih] <;> omega

theorem dropUsage_foldl (R : List (UUID × UUID)) :
    ∀ tags : List TagRow,
      R.foldl (fun ts r => dropUsage ts r.2) tags =
        tags.map (fun t => { t with usageCount := t.usageCount - pairCount R t.id }) := by
  induction R with
  | nil =>
    intro tags
    simp only [List.foldl_nil]
    have hfun : (fun t : TagRow => { t with usageCount := t.usageCount - pairCount [] t.id }) =
        fun t : TagRow => t := by
      funext t
      obtain ⟨i, nm, d, c, ty, act, u, pid⟩ := t
      simp [pairCount]
    rw [hfun, List.map_id']
  | cons r R' ih =>
    intro tags
    rw [List.foldl_cons, ih, dropUsage, List.map_map]
    have hfun : ((fun t : TagRow => { t with usageCount := t.usageCount - pairCount R' t.id }) ∘
        (fun t : TagRow => if t.id == r.2 then { t with usageCount := t.usageCount - 1 } else t)) =
        fun t : TagRow => { t with usageCount := t.usageCount - pairCount (r :: R') t.id } := by
      funext t
      obtain ⟨i, nm, d, c, ty, act, u, pid⟩ := t
      by_cases hc : (i == r.2) = true
      · have hc' : (r.2 == i) = true := by
          rw [beq_iff_eq] at hc ⊢
          exact hc.symm
        simp [Function.comp, hc, pairCount, List.countP_cons, hc']
        omega
      · have hc' : (r.2 == i) = false := by
          rw [beq_eq_false_iff_ne]
          rw [beq_iff_eq] at hc
          exact fun he => hc he.symm
        simp [Function.comp, hc, pairCount, List.countP_cons, hc']
    rw [hfun]

theorem bumpUsage_foldl (L : List UUID) :
    ∀ tags : List TagRow,
      L.foldl (fun ts i => bumpUsage ts i) tags =
        tags.map (fun t => { t with usageCount := t.usageCount + idCount L t.id }) := by
  induction L with
  | nil =>
    intro tags
    simp only [List.foldl_nil]
    have hfun : (fun t : TagRow => { t with usageCount := t.usageCount + idCount [] t.id }) =
        fun t : TagRow => t := by
      funext t
      obtain ⟨i, nm, d, c, ty, act, u, pid⟩ := t
      simp [idCount]
    rw [hfun, List.map_id']
  | cons j L' ih =>
    intro tags
    rw [List.foldl_cons, ih, bumpUsage, List.map_map]
    have hfun : ((fun t : TagRow => { t with usageCount := t.usageCount + idCount L' t.id }) ∘
        (fun t : TagRow => if t.id == j then { t with usageCount := t.usageCount + 1 } else t)) =
        fun t : TagRow => { t with usageCount := t.usageCount + idCount (j :: L') t.id } := by
      funext t
      obtain ⟨i, nm, d, c, ty, act, u, pid⟩ := t
      by_cases hc : (i == j) = true
      · have hc' : (j == i) = true := by
          rw [beq_iff_eq] at hc ⊢
          exact hc.symm
        simp [Function.comp, hc, idCount, List.countP_cons, hc']
        omega
      · have hc' : (j == i) = false := by
          rw [beq_eq_false_iff_ne]
          rw [beq_iff_eq] at hc
          exact fun he => hc he.symm
        simp [Function.comp, hc, idCount, List.countP_cons, hc']
    rw [hfun]

theorem insertFileTagLoop_ok (x : UUID) :
    ∀ (ids : List UUID) (db db' : DBState),
      insertFileTagLoop db x ids = Except.ok db' →
      db' = { db with
        fileTags := db.fileTags ++ ids.map (fun i => (x, i))
        tags := ids.foldl (fun ts i => bumpUsage ts i) db.tags } := by
  intro ids
  induction ids with
  | nil =>
    intro db db' h
    unfold insertFileTagLoop at h
    cases h
    simp
  | cons tid rest ih =>
    intro db db' h
    unfold insertFileTagLoop at h
    cases hins : insertFileTag db x tid with
    | error e =>
      rw [hins, except_error_bind] at h
      cases h
    | ok db1 =>
      rw [hins, except_ok_bind] at h
      rw [ih db1 db' h, insertFileTag_ok hins]
      simp

theorem insertFolderTagLoop_ok (x : UUID) :
    ∀ (ids : List UUID) (db db' : DBState),
      insertFolderTagLoop db x ids = Except.ok db' →
      db' = { db with
        folderTags := db.folderTags ++ ids.map (fun i => (x, i))
        tags := ids.foldl (fun ts i => bumpUsage ts i) db.tags } := by
  intro ids
  induction ids with
  | nil =>
    intro db db' h
    unfold insertFolderTagLoop at h
    cases h
    simp
  | cons tid rest ih =>
    intro db db' h
    unfold insertFolderTagLoop at h
    cases hins : insertFolderTag db x tid with
    | error e =>
      rw [hins, except_error_bind] at h
      cases h
    | ok db1 =>
      rw [hins, except_ok_bind] at h
      rw [ih db1 db' h, insertFolderTag_ok hins]
      simp

/-- C2.  The triggers keep the derived counters exact: if every tag's
stored `usage_count` equals its total number of assignment rows before
an assign or unassign operation, the same holds after the operation
completes (each insert bumps exactly the matching tag row; each delete
decrements it, and the floor of the decrement is never hit because the
invariant guarantees the counter is at least the number of rows being
removed). -/
theorem usage_counter_invariant_preserved (db db' : DBState) (subj : UUID) (ids : List UUID)
    (hinv : usageInv db)
    (hop : assignTagsToFile db subj ids = Except.ok db' ∨
           removeTagsFromFile db subj ids = Except.ok db' ∨
           assignTagsToFolder db subj ids = Except.ok db' ∨
           removeTagsFromFolder db subj ids = Except.ok db') :
    usageInv db' := by
  rcases hop with h | h | h | h
  · unfold assignTagsToFile at h
    split at h
    · cases h
      exact hinv
    · dsimp only at h
      split at h
      · cases h
        exact hinv
      · exact insertFileTagLoop_inv subj _ db db' hinv h
  · unfold removeTagsFromFile at h
    split at h
    · cases h
      exact hinv
    · cases h
      intro t ht
      rw [dropUsage_foldl] at ht
      obtain ⟨t0, ht0, rfl⟩ := List.mem_map.mp ht
      have h0 := hinv t0 ht0
      have hsplit := countP_filter_split (fun r => r.2 == t0.id)
        (fun r => r.1 == subj && ids.contains r.2) db.fileTags
      obtain ⟨i, nm, d, c, ty, act, u, pid⟩ := t0
      simp only [pairCount] at h0 hsplit ⊢
      omega
  · unfold assignTagsToFolder at h
    split at h
    · cases h
      exact hinv
    · dsimp only at h
      split at h
      · cases h
        exact hinv
      · exact insertFolderTagLoop_inv subj _ db db' hinv h
  · unfold removeTagsFromFolder at h
    split at h
    · cases h
      exact hinv
    · cases h
      intro t ht
      rw [dropUsage_foldl] at ht
      obtain ⟨t0, ht0, rfl⟩ := List.mem_map.mp ht
      have h0 := hinv t0 ht0
      have hsplit := countP_filter_split (fun r => r.2 == t0.id)
        (fun r => r.1 == subj && ids.contains r.2) db.folderTags
      obtain ⟨i, nm, d, c, ty, act, u, pid⟩ := t0
      simp only [pairCount] at h0 hsplit ⊢
      omega

/-- Witness for C2: assigning one fresh tag to a file in a store that
satisfies the invariant yields a store that still satisfies it. -/
theorem usage_counter_invariant_preserved_witness :
    usageInv { files := [mkFile "f1" "a.pdf" none],
               tags := [{ (mkTag "t1" "Work" TagType.user true 0 none) with usageCount := 1 }],
               fileTags := [("f1", "t1")] } :=
  usage_counter_invariant_preserved
    { files := [mkFile "f1" "a.pdf" none],
      tags := [mkTag "t1" "Work" TagType.user true 0 none] }
    { files := [mkFile "f1" "a.pdf" none],
      tags := [{ (mkTag "t1" "Work" TagType.user true 0 none) with usageCount := 1 }],
      fileTags := [("f1", "t1")] }
    "f1" ["t1"] (by decide) (Or.inl (by rfl))

/-- C6 counterexample: tag `t1` is already assigned to file `f1` (store
satisfies the usage invariant, `usageCount = 1`).  `assign` skips the
existing pair and inserts nothing, but `unassign` still deletes it, so
the round trip ends with `usageCount = 0`, not the prior `1`. -/
theorem assign_unassign_roundtrip_counterexample :
    (do
      let db1 ← assignTagsToFile
        { files := [mkFile "f1" "a.pdf" none],
          tags := [{ mkTag "t1" "Work" TagType.user true 0 none with usageCount := 1 }],
          fileTags := [("f1", "t1")] } "f1" ["t1"]
      let db2 ← removeTagsFromFile db1 "f1" ["t1"]
      pure (db2.tags.map TagRow.usageCount) : Except ServiceError (List Nat)) =
      Except.ok [0] ∧
    usageInv { files := [mkFile "f1" "a.pdf" none],
               tags := [{ mkTag "t1" "Work" TagType.user true 0 none with usageCount := 1 }],
               fileTags := [("f1", "t1")] } ∧
    [{ mkTag "t1" "Work" TagType.user true 0 none with usageCount := 1 }].map
      TagRow.usageCount = [1] :=
  ⟨by rfl, by decide, by rfl⟩

theorem assignFile_roundtrip_aux (db db₁ db₂ : DBState) (f : UUID) (ids : List UUID)
    (hfresh : ∀ i ∈ ids, (f, i) ∉ db.fileTags)
    (h1 : assignTagsToFile db f ids = Except.ok db₁)
    (h2 : removeTagsFromFile db₁ f ids = Except.ok db₂) :
    db₂.tags = db.tags := by
  by_cases hlen : (ids.length == 0) = true
  · have hids : ids = [] := by
      rw [beq_iff_eq] at hlen
      exact List.length_eq_zero.mp hlen
    subst hids
    unfold assignTagsToFile at h1
    rw [if_pos (by decide)] at h1
    cases h1
    unfold removeTagsFromFile at h2
    rw [if_pos (by decide)] at h2
    cases h2
    rfl
  · have hmemids : ∀ i ∈ ids, ((getFileTagIds db f).contains i) = false := by
      intro i hi
      rw [← Bool.not_eq_true]
      intro hc
      have hmem : i ∈ getFileTagIds db f := List.elem_iff.mp hc
      unfold getFileTagIds at hmem
      obtain ⟨r, hr, hri⟩ := List.mem_map.mp hmem
      have hrm := (List.mem_filter.mp hr).1
      have hrf := (List.mem_filter.mp hr).2
      obtain ⟨a, b⟩ := r
      have ha : a = f := by simpa using hrf
      have hb : b = i := hri
      subst ha
      subst hb
      exact hfresh b hi hrm
    have hfilter : ids.filter (fun i => !((getFileTagIds db f).contains i)) = ids := by
      rw [List.filter_eq_self]
      intro i hi
      rw [hmemids i hi]
      rfl
    unfold assignTagsToFile at h1
    rw [if_neg hlen] at h1
    dsimp only at h1
    rw [hfilter, if_neg hlen] at h1
    have hchar := insertFileTagLoop_ok f ids db db₁ h1
    unfold removeTagsFromFile at h2
    rw [if_neg hlen] at h2
    cases h2
    subst hchar
    dsimp only
    rw [List.filter_append]
    have hnil : db.fileTags.filter (fun r => r.1 == f && ids.contains r.2) = [] := by
      rw [List.filter_eq_nil_iff]
      rintro ⟨a, b⟩ hr hc
      rw [Bool.and_eq_true] at hc
      have ha : a = f := by simpa using hc.1
      have hb : b ∈ ids := List.elem_iff.mp hc.2
      subst ha
      exact hfresh b hb hr
    have hall : (ids.map (fun i => (f, i))).filter (fun r => r.1 == f && ids.contains r.2) =
        ids.map (fun i => (f, i)) := by
      rw [List.filter_eq_self]
      intro r hr
      obtain ⟨i, hi, rfl⟩ := List.mem_map.mp hr
      rw [Bool.and_eq_true]
      exact ⟨by simp, List.elem_iff.mpr hi⟩
    rw [hnil, hall, List.nil_append]
    rw [bumpUsage_foldl, dropUsage_foldl, List.map_map]
    have hfun : ((fun t : TagRow =>
          { t with usageCount := t.usageCount - pairCount (ids.map (fun i => (f, i))) t.id }) ∘
        (fun t : TagRow => { t with usageCount := t.usageCount + idCount ids t.id })) =
        fun t : TagRow => t := by
      funext t
      obtain ⟨i, nm, d, c, ty, act, u, pid⟩ := t
      have hcnt : pairCount (ids.map (fun i => (f, i))) i = idCount ids i := by
        unfold pairCount idCount
        rw [List.countP_map]
        rfl
      simp [Function.comp, hcnt]
    rw [hfun, List.map_id']

theorem assignFolder_roundtrip_aux (db db₁ db₂ : DBState) (f : UUID) (ids : List UUID)
    (hfresh : ∀ i ∈ ids, (f, i) ∉ db.folderTags)
    (h1 : assignTagsToFolder db f ids = Except.ok db₁)
    (h2 : removeTagsFromFolder db₁ f ids = Except.ok db₂) :
    db₂.tags = db.tags := by
  by_cases hlen : (ids.length == 0) = true
  · have hids : ids = [] := by
      rw [beq_iff_eq] at hlen
      exact List.length_eq_zero.mp hlen
    subst hids
    unfold assignTagsToFolder at h1
    rw [if_pos (by decide)] at h1
    cases h1
    unfold removeTagsFromFolder at h2
    rw [if_pos (by decide)] at h2
    cases h2
    rfl
  · have hmemids : ∀ i ∈ ids, ((getFolderTagIds db f).contains i) = false := by
      intro i hi
      rw [← Bool.not_eq_true]
      intro hc
      have hmem : i ∈ getFolderTagIds db f := List.elem_iff.mp hc
      unfold getFolderTagIds at hmem
      obtain ⟨r, hr, hri⟩ := List.mem_map.mp hmem
      have hrm := (List.mem_filter.mp hr).1
      have hrf := (List.mem_filter.mp hr).2
      obtain ⟨a, b⟩ := r
      have ha : a = f := by simpa using hrf
      have hb : b = i := hri
      subst ha
      subst hb
      exact hfresh b hi hrm
    have hfilter : ids.filter (fun i => !((getFolderTagIds db f).contains i)) = ids := by
      rw [List.filter_eq_self]
      intro i hi
      rw [hmemids i hi]
      rfl
    unfold assignTagsToFolder at h1
    rw [if_neg hlen] at h1
    dsimp only at h1
    rw [hfilter, if_neg hlen] at h1
    have hchar := insertFolderTagLoop_ok f ids db db₁ h1
    unfold removeTagsFromFolder at h2
    rw [if_neg hlen] at h2
    cases h2
    subst hchar
    dsimp only
    rw [List.filter_append]
    have hnil : db.folderTags.filter (fun r => r.1 == f && ids.contains r.2) = [] := by
      rw [List.filter_eq_nil_iff]
      rintro ⟨a, b⟩ hr hc
      rw [Bool.and_eq_true] at hc
      have ha : a = f := by simpa using hc.1
      have hb : b ∈ ids := List.elem_iff.mp hc.2
      subst ha
      exact hfresh b hb hr
    have hall : (ids.map (fun i => (f, i))).filter (fun r => r.1 == f && ids.contains r.2) =
        ids.map (fun i => (f, i)) := by
      rw [List.filter_eq_self]
      intro r hr
      obtain ⟨i, hi, rfl⟩ := List.mem_map.mp hr
      rw [Bool.and_eq_true]
      exact ⟨by simp, List.elem_iff.mpr hi⟩
    rw [hnil, hall, List.nil_append]
    rw [bumpUsage_foldl, dropUsage_foldl, List.map_map]
    have hfun : ((fun t : TagRow =>
          { t with usageCount := t.usageCount - pairCount (ids.map (fun i => (f, i))) t.id }) ∘
        (fun t : TagRow => { t with usageCount := t.usageCount + idCount ids t.id })) =
        fun t : TagRow => t := by
      funext t
      obtain ⟨i, nm, d, c, ty, act, u, pid⟩ := t
      have hcnt : pairCount (ids.map (fun i => (f, i))) i = idCount ids i := by
        unfold pairCount idCount
        rw [List.countP_map]
        rfl
      simp [Function.comp, hcnt]
    rw [hfun, List.map_id']

/-- C6 (amended).  For every subject — file or folder — `assign S` then
`unassign S` on that subject restores every tag row exactly, provided no
tag of `S` was already assigned to the subject beforehand (then the
assign inserts all of `S` and the unassign removes exactly those pairs).
When some tag of `S` was already assigned, the skip-existing filter
makes the assign a no-op for it while the unassign still deletes the
pre-existing pair, so its counter ends one below the prior value (see
the counterexample). -/
theorem assign_unassign_roundtrip (db : DBState) (subj : UUID) (ids : List UUID) :
    (∀ db₁ db₂, (∀ i ∈ ids, (subj, i) ∉ db.fileTags) →
      assignTagsToFile db subj ids = Except.ok db₁ →
      removeTagsFromFile db₁ subj ids = Except.ok db₂ →
      db₂.tags = db.tags) ∧
    (∀ db₁ db₂, (∀ i ∈ ids, (subj, i) ∉ db.folderTags) →
      assignTagsToFolder db subj ids = Except.ok db₁ →
      removeTagsFromFolder db₁ subj ids = Except.ok db₂ →
      db₂.tags = db.tags) :=
  ⟨fun db₁ db₂ hfresh h1 h2 => assignFile_roundtrip_aux db db₁ db₂ subj ids hfresh h1 h2,
   fun db₁ db₂ hfresh h1 h2 => assignFolder_roundtrip_aux db db₁ db₂ subj ids hfresh h1 h2⟩

/-- Witness for the amended C6: one fresh tag assigned and unassigned on
a file and, in a second store, on a folder; the tag row (usage 5) is
restored exactly both times. -/
theorem assign_unassign_roundtrip_witness :
    (DBState.tags { files := [mkFile "f1" "a.pdf" none],
                    tags := [{ mkTag "t1" "Work" TagType.user true 0 none with usageCount := 5 }],
                    fileTags := [] }) =
    (DBState.tags { files := [mkFile "f1" "a.pdf" none],
                    tags := [{ mkTag "t1" "Work" TagType.user true 0 none with usageCount := 5 }],
                    fileTags := [] }) ∧
    (DBState.tags { folders := [mkFolder "d1" "D" none FolderStatus.active false false],
                    tags := [{ mkTag "t1" "Work" TagType.user true 0 none with usageCount := 5 }],
                    folderTags := [] }) =
    (DBState.tags { folders := [mkFolder "d1" "D" none FolderStatus.active false false],
                    tags := [{ mkTag "t1" "Work" TagType.user true 0 none with usageCount := 5 }],
                    folderTags := [] }) :=
  ⟨(assign_unassign_roundtrip
      { files := [mkFile "f1" "a.pdf" none],
        tags := [{ mkTag "t1" "Work" TagType.user true 0 none with usageCount := 5 }],
        fileTags := [] }
      "f1" ["t1"]).1
    { files := [mkFile "f1" "a.pdf" none],
      tags := [{ mkTag "t1" "Work" TagType.user true 0 none with usageCount := 6 }],
      fileTags := [("f1", "t1")] }
    { files := [mkFile "f1" "a.pdf" none],
      tags := [{ mkTag "t1" "Work" TagType.user true 0 none with usageCount := 5 }],
      fileTags := [] }
    (by decide) (by rfl) (by rfl),
   (assign_unassign_roundtrip
      { folders := [mkFolder "d1" "D" none FolderStatus.active false false],
        tags := [{ mkTag "t1" "Work" TagType.user true 0 none with usageCount := 5 }],
        folderTags := [] }
      "d1" ["t1"]).2
    { folders := [mkFolder "d1" "D" none FolderStatus.active false false],
      tags := [{ mkTag "t1" "Work" TagType.user true 0 none with usageCount := 6 }],
      folderTags := [("d1", "t1")] }
    { folders := [mkFolder "d1" "D" none FolderStatus.active false false],
      tags := [{ mkTag "t1" "Work" TagType.user true 0 none with usageCount := 5 }],
      folderTags := [] }
    (by decide) (by rfl) (by rfl)⟩

end MeFolder
